import Mathlib

/-!
Verification of the FPL_API core: the projection pipeline
(`compute_expected_points_for_entry` in `app/services/fpl_entry_service.py`
together with the enrichment helpers in `app/services/utils/enrichment.py`),
the metrics layer (`compute_value_efficiency`,
`compute_performance_analysis`), the insight heuristics
(`app/services/insights_service.py`, the insights endpoint in
`app/api/endpoints/insights.py`) and the constrained squad optimizer
(`optimize_transfer`).

Numeric values are embedded as rationals (`ℚ`); Python float literals such
as `1.10`, `0.90`, `1.05`, `0.95`, `0.8` and `-1.5` are the exact rationals
`11/10`, `9/10`, `21/20`, `19/20`, `4/5` and `-(3/2)`.  The upstream
`now_cost`, `value` and `bank` fields are integers (tenths of a million),
embedded as `Int`.  Network fetches are
external collaborators: each embedded operation takes the already-fetched
data as an argument.  The PuLP solve step is modelled as an oracle that
either returns an assignment of the binary variables satisfying the model's
constraints (status `Optimal`, i.e. 1) or reports infeasibility (`none`),
after which the result-extraction code of `optimize_transfer` runs on the
variable values (PuLP leaves `varValue` unset when there is no solution, so
no `== 1` test succeeds).
-/

namespace FPL

/-! ### Projection pipeline: multipliers
`fpl_entry_service.py` lines 58-68.  `is_home` is `home_away == "H"`
(line 58); the venue multiplier is `1.10 if is_home else 0.90` (line 59);
the form multiplier is `1.05 if f >= 3.0 else (0.95 if f < 1.0 else 1.0)`
(line 60); `max_fdr` is the column maximum of `avg_fdr_nextN` over the
squad being scored, defaulting to `5.0` when every value is missing
(line 65); the fixture-difficulty multiplier is
`(max_fdr + 1 - x)/max_fdr` for a known average `x` and `1.0` for a
missing one (lines 66-68). -/

/-- Venue multiplier (lines 58-59): `1.10` exactly when the enriched
`home_away` field is the string `"H"`, `0.90` for every other value,
a missing value included. -/
def homeMultiplier (homeAway : Option String) : ℚ :=
  if homeAway = some "H" then 11/10 else 9/10

/-- Form multiplier (line 60). -/
def formMultiplier (form : ℚ) : ℚ :=
  if 3 ≤ form then 21/20 else if form < 1 then 19/20 else 1

/-- `home_away` as built by `enrichment.build_current_gw_stats` lines
264-267: `was_home` mapped through `{True: "H", False: "A"}`; a missing
`was_home` (zero-stat placeholder row) stays missing. -/
def homeAwayOfWasHome : Option Bool → Option String
  | some true => some "H"
  | some false => some "A"
  | none => none

/-- `pandas.Series.max`: the maximum of the known values, `none` for an
all-missing column. -/
def seriesMax : List ℚ → Option ℚ
  | [] => none
  | x :: xs => some (xs.foldl max x)

/-- `max_fdr` (line 65): the column maximum of the known
`avg_fdr_nextN` values, `5.0` when no value is known. -/
def maxFdr (avgs : List (Option ℚ)) : ℚ :=
  match seriesMax (avgs.filterMap id) with
  | none => 5
  | some m => m

/-- Fixture-difficulty multiplier (lines 66-68). -/
def fdrMultiplier (maxv : ℚ) (avg : Option ℚ) : ℚ :=
  match avg with
  | none => 1
  | some v => (maxv + 1 - v) / maxv

/-- One row of the enriched table as `compute_expected_points_for_entry`
consumes it: `ep_next` already coerced by `_safe_float` (line 53), the
numeric `form`, the `home_away` flag and the merged `avg_fdr_nextN`. -/
structure ERow where
  element : Nat
  ep_next : ℚ
  form : ℚ
  home_away : Option String
  avg_fdr_nextN : Option ℚ
deriving DecidableEq

/-- One element of the `players` list of the response (lines 73-74). -/
structure PlayerOut where
  element : Nat
  expected_basic : ℚ
  expected_adj : ℚ
deriving DecidableEq

/-- `max_fdr` over the squad being scored (line 65). -/
def squadMaxFdr (rows : List ERow) : ℚ :=
  maxFdr (rows.map ERow.avg_fdr_nextN)

/-- `expected_adj` (line 70): base expected points times venue, form and
fixture-difficulty multipliers. -/
def expectedAdj (rows : List ERow) (r : ERow) : ℚ :=
  r.ep_next * homeMultiplier r.home_away * formMultiplier r.form *
    fdrMultiplier (squadMaxFdr rows) r.avg_fdr_nextN

/-- The per-player output list (lines 53-74). -/
def computeExpectedPlayers (rows : List ERow) : List PlayerOut :=
  rows.map (fun r => ⟨r.element, r.ep_next, expectedAdj rows r⟩)

/-- `team_expected_points` (line 72). -/
def teamExpectedPoints (rows : List ERow) : ℚ :=
  ((computeExpectedPlayers rows).map PlayerOut.expected_adj).sum

/-! ### Metrics layer: value efficiency
`compute_value_efficiency`, lines 82-109. -/

/-- One squad row as `compute_value_efficiency` consumes it; `ep_next`
and `now_price` are the raw upstream fields, possibly missing or
unparseable (`none`). -/
structure VRow where
  element : Nat
  web_name : String
  ep_next : Option ℚ
  now_price : Option ℚ
deriving DecidableEq

/-- `_safe_float(value, 0.0)` (lines 21-25): the parsed number, `0.0`
when the value is missing or unparseable. -/
def safeFloat (v : Option ℚ) : ℚ := v.getD 0

/-- `value_eff` (lines 92-94): expected over cost when the cost is
positive, `0.0` otherwise. -/
def valueEff (expected cost : ℚ) : ℚ :=
  if 0 < cost then expected / cost else 0

/-- A row's value efficiency after the `_safe_float` coercions
(lines 90-94). -/
def rowValueEff (r : VRow) : ℚ :=
  valueEff (safeFloat r.ep_next) (safeFloat r.now_price)

/-- `team_avg` (line 95): the mean of `value_eff` over the squad. -/
def teamAvgEff (rows : List VRow) : ℚ :=
  (rows.map rowValueEff).sum / (rows.length : ℚ)

/-- `sorted_df` (line 96): the squad sorted by `value_eff` descending. -/
def sortedByEff (rows : List VRow) : List VRow :=
  rows.mergeSort (fun a b => decide (rowValueEff b ≤ rowValueEff a))

/-- The rows for which a transfer-out recommendation is appended
(lines 99-103): those whose `value_eff` is strictly below
`team_avg * 0.8`. -/
def transferOutRecs (rows : List VRow) : List VRow :=
  (sortedByEff rows).filter
    (fun r => decide (rowValueEff r < teamAvgEff rows * (4/5)))

/-! ### Metrics layer: performance analysis
`compute_performance_analysis`, lines 111-130. -/

/-- One record of the entry-history `current` list, after the
`_safe_float` coercions of lines 118-119. -/
structure HistRecord where
  event : Nat
  points_per_game : ℚ
  ep_this : ℚ
deriving DecidableEq

/-- One row of the `players` list of the response (lines 120-123). -/
structure PerfRow where
  gameweek : Nat
  points_per_game : ℚ
  ep_this : ℚ
  delta : ℚ
  status : String
deriving DecidableEq

/-- The status bucket of a performance delta (line 121). -/
def perfStatus (delta : ℚ) : String :=
  if delta < -(3/2) then "Under-performing"
  else if 3/2 < delta then "Over-performing"
  else "Normal"

/-- The per-gameweek rows (lines 120-123): `delta` is realized
points-per-game minus the pre-gameweek expectation. -/
def performanceRows (hist : List HistRecord) : List PerfRow :=
  hist.map (fun h =>
    ⟨h.event, h.points_per_game, h.ep_this,
      h.points_per_game - h.ep_this,
      perfStatus (h.points_per_game - h.ep_this)⟩)

/-- The summary counts (lines 124-125): how many rows carry each
status. -/
def performanceSummary (hist : List HistRecord) : Nat × Nat :=
  ((performanceRows hist).countP (fun r => r.status == "Under-performing"),
   (performanceRows hist).countP (fun r => r.status == "Over-performing"))

/-! ### Insight heuristics: cold streaks
`insights_service.generate_insights`, lines 55-71.  The realized scores
are listed oldest to newest (`hist.sort_values("round")`); the loop walks
`reversed(pts)` - newest first - counting scores at or below the
low-points threshold and breaking at the first score above it. -/

/-- The length of the trailing low-points streak (lines 61-68). -/
def lowPointsStreak (pts : List Int) (threshold : Int) : Nat :=
  (pts.reverse.takeWhile (fun p => decide (p ≤ threshold))).length

/-- Whether the cold-streak scan flags the player (line 69): the streak
reaches the minimum length. -/
def coldStreakFlagged (pts : List Int) (threshold : Int) (minLen : Nat) : Bool :=
  decide (minLen ≤ lowPointsStreak pts threshold)

/-! ### Constrained squad optimizer
`optimize_transfer`, lines 207-304.  One catalogue entry per bootstrap
element with the fields the optimizer reads. -/

/-- A catalogue player (`bootstrap['elements']` row) with the fields
`optimize_transfer` reads. -/
structure Elem where
  id : Nat
  team : Nat
  team_code : Nat
  element_type : Nat
  now_cost : Int
  ep_next : ℚ
  web_name : String
deriving DecidableEq

/-- The catalogue entries whose binary flag is set: `cat` is the
catalogue in index order and `flags` the per-index variable values. -/
def selected (cat : List Elem) (flags : List Bool) : List Elem :=
  ((cat.zip flags).filter (fun p => p.2)).map Prod.fst

/-- The total `now_cost` of the flagged players (line 256). -/
def squadCost (cat : List Elem) (flags : List Bool) : Int :=
  ((selected cat flags).map Elem.now_cost).sum

/-- Flagged players of one position class (lines 259-262). -/
def posCount (cat : List Elem) (flags : List Bool) (t : Nat) : Nat :=
  (selected cat flags).countP (fun e => e.element_type == t)

/-- Flagged players of one club (lines 265-266). -/
def clubCount (cat : List Elem) (flags : List Bool) (tc : Nat) : Nat :=
  (selected cat flags).countP (fun e => e.team_code == tc)

/-- The transfer-linking constraints (lines 246-250): an owned player's
`transfer_in` variable is fixed to 0; a non-owned player selected for the
squad must have its `transfer_in` variable set. -/
def transferLogic (currentIds : List Nat) (cat : List Elem)
    (squad tin : List Bool) : Prop :=
  ∀ p ∈ cat.zip (squad.zip tin),
    (p.1.id ∈ currentIds → p.2.2 = false) ∧
    (p.1.id ∉ currentIds → p.2.1 = true → p.2.2 = true)

/-- The constraint set of the integer program built by
`optimize_transfer` (lines 241-266): squad size exactly 15, the
transfer-linking constraints, at most 1 player brought in (line 253,
hard-coded), total cost within the budget, position quotas 2/5/5/3 and
at most 3 players per club. -/
def feasible (cat : List Elem) (currentIds : List Nat) (budget : Int)
    (squad tin : List Bool) : Prop :=
  (selected cat squad).length = 15 ∧
  transferLogic currentIds cat squad tin ∧
  (selected cat tin).length ≤ 1 ∧
  squadCost cat squad ≤ budget ∧
  posCount cat squad 1 = 2 ∧
  posCount cat squad 2 = 5 ∧
  posCount cat squad 3 = 5 ∧
  posCount cat squad 4 = 3 ∧
  ∀ tc ∈ cat.map Elem.team_code, clubCount cat squad tc ≤ 3

/-- Modelled from the spec: the same constraint set with the transfer
allowance as a parameter `k` - the spec's generalization note says "the
transfer allowance is a parameter, not hard-coded to one; a correct
implementation must support allowance = 0..N", and §6 gives the
interface `optimize_transfer(manager_id, gameweek?, transfer_allowance=1)`.
The code of `optimize_transfer` takes no such parameter; this definition
exists to compare the hard-coded constraint set against the spec's
parametric one. -/
def feasibleAllowance (cat : List Elem) (currentIds : List Nat) (budget : Int)
    (k : Nat) (squad tin : List Bool) : Prop :=
  (selected cat squad).length = 15 ∧
  transferLogic currentIds cat squad tin ∧
  (selected cat tin).length ≤ k ∧
  squadCost cat squad ≤ budget ∧
  posCount cat squad 1 = 2 ∧
  posCount cat squad 2 = 5 ∧
  posCount cat squad 3 = 5 ∧
  posCount cat squad 4 = 3 ∧
  ∀ tc ∈ cat.map Elem.team_code, clubCount cat squad tc ≤ 3

instance decidableTransferLogic (currentIds : List Nat) (cat : List Elem)
    (squad tin : List Bool) :
    Decidable (transferLogic currentIds cat squad tin) := by
  unfold transferLogic
  infer_instance

instance decidableFeasible (cat : List Elem) (currentIds : List Nat)
    (budget : Int) (squad tin : List Bool) :
    Decidable (feasible cat currentIds budget squad tin) := by
  unfold feasible
  infer_instance

instance decidableFeasibleAllowance (cat : List Elem) (currentIds : List Nat)
    (budget : Int) (k : Nat) (squad tin : List Bool) :
    Decidable (feasibleAllowance cat currentIds budget k squad tin) := by
  unfold feasibleAllowance
  infer_instance

/-- The response of `optimize_transfer` (lines 298-304); `transfer_out`
is kept as the list of outgoing player ids (the code looks each id up in
the catalogue to attach its metadata, which changes no list length). -/
structure OptResult where
  gameweek : Nat
  optimization_status : String
  transfer_in : List Elem
  transfer_out : List Nat
  expected_points_gain : ℚ

/-- Result extraction of `optimize_transfer` (lines 269-304) on the
solver's outcome: `some a` is an optimal assignment of the
`(is_in_squad, is_transfer_in)` variables, `none` is infeasibility, in
which case no `varValue` equals 1 and both variable scans select
nothing. -/
def optimizeTransfer (cat : List Elem) (currentIds : List Nat)
    (value bank : Int) (gameweek : Nat)
    (sol : Option (List Bool × List Bool)) : OptResult :=
  let squadVals : List Bool :=
    match sol with
    | some a => a.1
    | none => List.replicate cat.length false
  let tinVals : List Bool :=
    match sol with
    | some a => a.2
    | none => List.replicate cat.length false
  let tin := selected cat tinVals
  let newSquadIds := (selected cat squadVals).map Elem.id
  { gameweek := gameweek
    optimization_status := if sol.isSome then "success" else "failed"
    transfer_in := tin
    transfer_out := currentIds.filter (fun oid => !(newSquadIds.contains oid))
    expected_points_gain := (tin.map Elem.ep_next).sum }

/-! ### Insights endpoint and the service's method table
`app/api/endpoints/insights.py` lines 28-51 and the methods the class
`FPLEntryService` actually defines. -/

/-- One entry of a manager's picks list. -/
structure Pick where
  element : Nat
  multiplier : Nat
deriving DecidableEq

/-- An insight: a title and its ordered findings. -/
structure Insight where
  title : String
  items : List String
deriving DecidableEq

/-- The early-return insight of the endpoint (line 33). -/
def noDataInsight (entryId gw : Nat) : Insight :=
  ⟨"No data",
   ["No picks found for entry " ++ toString entryId ++ " GW " ++
      toString gw ++ "."]⟩

/-- `get_insights` (lines 28-51): with an empty picks list it returns
the single no-data insight before any enrichment runs; otherwise it
returns the generated insights (`computed` stands for the continuation
of the handler). -/
def getInsightsEndpoint (entryId gw : Nat) (picks : List Pick)
    (computed : List Insight) : List Insight :=
  if picks.isEmpty then [noDataInsight entryId gw] else computed

/-- The attributes the class `FPLEntryService`
(`app/services/fpl_entry_service.py`) defines: its class attribute and
its methods, in source order.  Neither `fetch_entry_picks` nor
`fetch_entry_history` is among them. -/
def fplEntryServiceMethods : List String :=
  ["base_url", "__init__", "_safe_float", "_get",
   "compute_expected_points_for_entry", "compute_value_efficiency",
   "compute_performance_analysis", "compute_fixture_run",
   "get_current_event", "get_entry_history", "get_entry_picks",
   "get_entry_transfers", "fetch_element_summaries",
   "_get_bootstrap_data", "optimize_transfer"]

/-- Python attribute dispatch on an `FPLEntryService` instance: calling a
defined method yields its result, calling an undefined one raises
`AttributeError`. -/
def attrCall (name : String) (result : α) : Except String α :=
  if fplEntryServiceMethods.contains name then Except.ok result
  else Except.error ("AttributeError: FPLEntryService has no attribute " ++ name)

/-- The response of `compute_expected_points_for_entry`
(lines 40-46 and 75-80). -/
structure EPResult where
  entry_id : Nat
  horizon : Nat
  team_expected_points : ℚ
  players : List PlayerOut
  warning : Option String

/-- `compute_expected_points_for_entry` (lines 35-80): its first step is
`self.fetch_entry_picks(entry_id)` (line 37); `picks` is the picks list
that call would fetch and `enrich` the joined enriched table the
current-gameweek and future builders would produce for it. -/
def computeExpectedPointsForEntry (entryId horizon : Nat)
    (picks : List Pick) (enrich : List Pick → List ERow) :
    Except String EPResult :=
  match attrCall "fetch_entry_picks" picks with
  | Except.error e => Except.error e
  | Except.ok picksList =>
    if picksList.isEmpty then
      Except.ok ⟨entryId, horizon, 0, [],
        some "No picks data returned for this entry."⟩
    else
      let rows := enrich picksList
      Except.ok ⟨entryId, horizon, teamExpectedPoints rows,
        computeExpectedPlayers rows, none⟩

/-! ### Concrete instances for witnesses and counterexamples -/

/-- A catalogue player with the given id, club and position, cost 50 and
5 expected points. -/
def mkElem (id tc et : Nat) : Elem :=
  ⟨id, tc, tc, et, 50, 5, "P" ++ toString id⟩

/-- A 15-player catalogue forming a legal squad: ids 1-15, positions
2 keepers, 5 defenders, 5 midfielders, 3 forwards, five clubs of three
players each. -/
def catW : List Elem :=
  [mkElem 1 1 1, mkElem 2 1 1,
   mkElem 3 1 2, mkElem 4 2 2, mkElem 5 2 2, mkElem 6 2 2, mkElem 7 3 2,
   mkElem 8 3 3, mkElem 9 3 3, mkElem 10 4 3, mkElem 11 4 3, mkElem 12 4 3,
   mkElem 13 5 4, mkElem 14 5 4, mkElem 15 5 4]

/-- The manager owns exactly the 15 players of `catW`. -/
def idsW : List Nat :=
  [1, 2, 3, 4, 5, 6, 7, 8, 9, 10, 11, 12, 13, 14, 15]

/-- Keeping the whole current squad: every `is_in_squad` set, every
`is_transfer_in` clear. -/
def keepAll : List Bool × List Bool :=
  (List.replicate 15 true, List.replicate 15 false)

/-- `catW` plus one non-owned forward of a sixth club. -/
def cat16 : List Elem := catW ++ [mkElem 16 6 4]

/-- Squad flags swapping player 15 out for player 16. -/
def squadX : List Bool :=
  [true, true, true, true, true, true, true, true, true, true, true,
   true, true, true, false, true]

/-- Transfer-in flags bringing exactly player 16 in. -/
def tinX : List Bool :=
  [false, false, false, false, false, false, false, false, false, false,
   false, false, false, false, false, true]

/-- A two-player enriched table for the fixture-difficulty witness: one
player with a known average difficulty of 2, one with no known
average. -/
def rowsC3 : List ERow :=
  [⟨1, 5, 2, some "H", some 2⟩, ⟨2, 3, 1, some "A", none⟩]

/-- The first player of `rowsC3`. -/
def rowC3 : ERow := ⟨1, 5, 2, some "H", some 2⟩

end FPL

namespace FPL

/-! ## Helper lemmas -/

theorem start_le_foldl_max (l : List ℚ) (a : ℚ) : a ≤ l.foldl max a := by
  induction l generalizing a with
  | nil => exact le_refl a
  | cons x xs ih =>
    rw [List.foldl_cons]
    exact le_trans (le_max_left a x) (ih (max a x))

theorem mem_le_foldl_max (x : ℚ) (l : List ℚ) :
    x ∈ l → ∀ a : ℚ, x ≤ l.foldl max a := by
  induction l with
  | nil => intro h; cases h
  | cons y ys ih =>
    intro h a
    rw [List.foldl_cons]
    rcases List.mem_cons.mp h with rfl | hmem
    · exact le_trans (le_max_right a x) (start_le_foldl_max ys (max a x))
    · exact ih hmem (max a y)

theorem le_seriesMax (v m : ℚ) (l : List ℚ) (hv : v ∈ l)
    (hm : seriesMax l = some m) : v ≤ m := by
  cases l with
  | nil => cases hv
  | cons k ks =>
    have hm2 : ks.foldl max k = m := by simpa [seriesMax] using hm
    rcases List.mem_cons.mp hv with rfl | hmem
    · exact hm2 ▸ start_le_foldl_max ks v
    · exact hm2 ▸ mem_le_foldl_max v ks hmem k

theorem mem_of_mem_selected {cat : List Elem} {flags : List Bool} {e : Elem}
    (h : e ∈ selected cat flags) : e ∈ cat := by
  simp only [selected, List.mem_map, List.mem_filter] at h
  obtain ⟨⟨e1, b⟩, ⟨hz, hb⟩, rfl⟩ := h
  exact (List.of_mem_zip hz).1

theorem selected_replicate_false (cat : List Elem) :
    selected cat (List.replicate cat.length false) = [] := by
  induction cat with
  | nil => rfl
  | cons c cs ih =>
    simpa [selected, List.replicate_succ, List.zip_cons_cons,
      List.filter_cons] using ih

theorem le_length_takeWhile_iff (p : Int → Bool) (l : List Int) (n : Nat) :
    n ≤ (l.takeWhile p).length ↔
      n ≤ l.length ∧ ∀ x ∈ l.take n, p x = true := by
  induction l generalizing n with
  | nil => simp
  | cons y ys ih =>
    cases n with
    | zero => simp
    | succ m =>
      cases hp : p y with
      | true =>
        simp [List.takeWhile_cons, hp, Nat.succ_le_succ_iff, ih]
      | false =>
        simp [List.takeWhile_cons, hp]

theorem perfStatus_spec (d : ℚ) :
    (perfStatus d = "Under-performing" ↔ d < -(3/2)) ∧
    (perfStatus d = "Over-performing" ↔ 3/2 < d) ∧
    (perfStatus d = "Normal" ↔ -(3/2) ≤ d ∧ d ≤ 3/2) := by
  unfold perfStatus
  split_ifs with h1 h2
  · exact ⟨iff_of_true rfl h1, iff_of_false (by decide) (by linarith),
      iff_of_false (by decide) (fun hc => by linarith [hc.1])⟩
  · exact ⟨iff_of_false (by decide) h1, iff_of_true rfl h2,
      iff_of_false (by decide) (fun hc => by linarith [hc.2])⟩
  · exact ⟨iff_of_false (by decide) h1, iff_of_false (by decide) h2,
      iff_of_true rfl ⟨le_of_not_lt h1, le_of_not_lt h2⟩⟩

end FPL

namespace FPL

/-! ## Claim theorems -/

/-- C3: for every player of the squad being scored whose known average
fixture difficulties lie on the FDR scale (at least 1), the
fixture-difficulty multiplier is strictly positive; it equals
`(max_fdr + 1 - avg) / max_fdr` when the player's average is known,
defaults to 1 when it is unknown, and `max_fdr` defaults to 5 when no
player of the computation has a known average. -/
theorem fdr_multiplier_positive (rows : List ERow) (r : ERow)
    (hr : r ∈ rows)
    (hscale : ∀ v : ℚ, some v ∈ rows.map ERow.avg_fdr_nextN → 1 ≤ v) :
    0 < fdrMultiplier (squadMaxFdr rows) r.avg_fdr_nextN ∧
    fdrMultiplier (squadMaxFdr rows) none = 1 ∧
    (∀ v : ℚ, r.avg_fdr_nextN = some v →
      fdrMultiplier (squadMaxFdr rows) r.avg_fdr_nextN =
        (squadMaxFdr rows + 1 - v) / squadMaxFdr rows) ∧
    ((rows.map ERow.avg_fdr_nextN).filterMap id = [] →
      squadMaxFdr rows = 5) := by
  refine ⟨?_, rfl, ?_, ?_⟩
  · cases hx : r.avg_fdr_nextN with
    | none => simp [fdrMultiplier]
    | some v =>
      have hv : some v ∈ rows.map ERow.avg_fdr_nextN := by
        rw [← hx]
        exact List.mem_map_of_mem ERow.avg_fdr_nextN hr
      have hvk : v ∈ (rows.map ERow.avg_fdr_nextN).filterMap id :=
        List.mem_filterMap.mpr ⟨some v, hv, rfl⟩
      cases hfm : (rows.map ERow.avg_fdr_nextN).filterMap id with
      | nil => rw [hfm] at hvk; cases hvk
      | cons k ks =>
        have hmax : squadMaxFdr rows = ks.foldl max k := by
          simp [squadMaxFdr, maxFdr, seriesMax, hfm]
        have hk : some k ∈ rows.map ERow.avg_fdr_nextN := by
          have hkmem : k ∈ (rows.map ERow.avg_fdr_nextN).filterMap id := by
            rw [hfm]; exact List.mem_cons_self k ks
          rcases List.mem_filterMap.mp hkmem with ⟨a, ha, hak⟩
          simp only [id_eq] at hak
          exact hak ▸ ha
        have hk1 : 1 ≤ k := hscale k hk
        have hm1 : (1 : ℚ) ≤ squadMaxFdr rows :=
          hmax ▸ le_trans hk1 (start_le_foldl_max ks k)
        have hvm : v ≤ squadMaxFdr rows := by
          rw [hfm] at hvk
          rw [hmax]
          rcases List.mem_cons.mp hvk with rfl | hmem
          · exact start_le_foldl_max ks v
          · exact mem_le_foldl_max v ks hmem k
        simp only [fdrMultiplier]
        apply div_pos
        · linarith
        · linarith
  · intro v hv
    rw [hv]
    rfl
  · intro h
    simp [squadMaxFdr, maxFdr, seriesMax, h]

/-- Witness for C3 at a concrete two-player squad. -/
theorem fdr_multiplier_positive_witness :
    0 < fdrMultiplier (squadMaxFdr rowsC3) rowC3.avg_fdr_nextN ∧
    fdrMultiplier (squadMaxFdr rowsC3) none = 1 ∧
    (∀ v : ℚ, rowC3.avg_fdr_nextN = some v →
      fdrMultiplier (squadMaxFdr rowsC3) rowC3.avg_fdr_nextN =
        (squadMaxFdr rowsC3 + 1 - v) / squadMaxFdr rowsC3) ∧
    ((rowsC3.map ERow.avg_fdr_nextN).filterMap id = [] →
      squadMaxFdr rowsC3 = 5) :=
  fdr_multiplier_positive rowsC3 rowC3 (by decide)
    (by
      intro v hv
      simp [rowsC3] at hv
      subst hv
      norm_num)

/-- C6: for every player of a projection, the output row carries adjusted
expected points equal to the base expected points times the venue, form
and fixture-difficulty multipliers; the venue multiplier is 11/10 at
home and 9/10 away, the form multiplier 21/20 for form at least 3,
19/20 for form below 1 and 1 otherwise. -/
theorem adjusted_expected_points_formula (rows : List ERow) :
    (∀ r ∈ rows,
      (⟨r.element, r.ep_next,
        r.ep_next * homeMultiplier r.home_away * formMultiplier r.form *
          fdrMultiplier (squadMaxFdr rows) r.avg_fdr_nextN⟩ : PlayerOut) ∈
        computeExpectedPlayers rows) ∧
    (∀ ha : Option String, ha = some "H" → homeMultiplier ha = 11/10) ∧
    (∀ ha : Option String, ha = some "A" → homeMultiplier ha = 9/10) ∧
    (∀ f : ℚ, 3 ≤ f → formMultiplier f = 21/20) ∧
    (∀ f : ℚ, f < 1 → formMultiplier f = 19/20) ∧
    (∀ f : ℚ, 1 ≤ f → f < 3 → formMultiplier f = 1) := by
  refine ⟨?_, ?_, ?_, ?_, ?_, ?_⟩
  · intro r hr
    exact List.mem_map_of_mem _ hr
  · intro ha h
    subst h
    rfl
  · intro ha h
    subst h
    rfl
  · intro f h
    simp [formMultiplier, h]
  · intro f h
    have h3 : ¬ (3 ≤ f) := by linarith
    simp [formMultiplier, h3, h]
  · intro f h1 h3
    have ha : ¬ (3 ≤ f) := by linarith
    have hb : ¬ (f < 1) := by linarith
    simp [formMultiplier, ha, hb]

/-- C10: the venue multiplier is 11/10 exactly when the enriched
`home_away` value is the string `"H"`; every other value - a missing one
included, as a player with no realized fixture record for the gameweek
gets - yields 9/10, so an unknown venue is scored as away. -/
theorem venue_multiplier_only_home_H :
    (∀ ha : Option String, homeMultiplier ha = 11/10 ↔ ha = some "H") ∧
    (∀ ha : Option String, ha ≠ some "H" → homeMultiplier ha = 9/10) ∧
    homeMultiplier none = 9/10 ∧
    (∀ wh : Option Bool, wh ≠ some true →
      homeMultiplier (homeAwayOfWasHome wh) = 9/10) := by
  have hne : (9/10 : ℚ) ≠ 11/10 := by norm_num
  refine ⟨?_, ?_, ?_, ?_⟩
  · intro ha
    constructor
    · intro h
      by_contra hx
      rw [homeMultiplier, if_neg hx] at h
      exact hne h
    · intro h
      rw [homeMultiplier, if_pos h]
  · intro ha h
    rw [homeMultiplier, if_neg h]
  · rw [homeMultiplier, if_neg (by simp)]
  · intro wh h
    cases wh with
    | none => rfl
    | some b =>
      cases b with
      | false => rfl
      | true => exact absurd rfl h

/-- C7: every row of the performance analysis has
`delta = points_per_game - ep_this`, carries status "Under-performing"
exactly when `delta < -3/2`, "Over-performing" exactly when
`delta > 3/2` and "Normal" otherwise, and the summary counts equal the
number of rows in each bucket. -/
theorem performance_delta_status_counts (hist : List HistRecord) :
    (∀ r ∈ performanceRows hist,
      r.delta = r.points_per_game - r.ep_this ∧
      (r.status = "Under-performing" ↔ r.delta < -(3/2)) ∧
      (r.status = "Over-performing" ↔ 3/2 < r.delta) ∧
      (r.status = "Normal" ↔ -(3/2) ≤ r.delta ∧ r.delta ≤ 3/2)) ∧
    (performanceSummary hist).1 =
      (performanceRows hist).countP (fun r => decide (r.delta < -(3/2))) ∧
    (performanceSummary hist).2 =
      (performanceRows hist).countP (fun r => decide (3/2 < r.delta)) := by
  have hstat : ∀ r ∈ performanceRows hist, r.status = perfStatus r.delta := by
    intro r hr
    rcases List.mem_map.mp hr with ⟨h, _, rfl⟩
    rfl
  refine ⟨?_, ?_, ?_⟩
  · intro r hr
    rcases List.mem_map.mp hr with ⟨h, _, rfl⟩
    exact ⟨rfl, perfStatus_spec (h.points_per_game - h.ep_this)⟩
  · apply List.countP_congr
    intro r hr
    rw [beq_iff_eq, decide_eq_true_eq, hstat r hr]
    exact (perfStatus_spec r.delta).1
  · apply List.countP_congr
    intro r hr
    rw [beq_iff_eq, decide_eq_true_eq, hstat r hr]
    exact (perfStatus_spec r.delta).2.1

/-- C8: value efficiency is expected points over price for a positive
price and exactly 0 for a zero or missing price (a zero-priced player is
handled without dividing); a transfer-out recommendation is emitted
exactly for the squad members whose efficiency is strictly below 80% of
the squad mean. -/
theorem value_efficiency_rule :
    (∀ e : ℚ, valueEff e 0 = 0) ∧
    (∀ r : VRow, r.now_price = none ∨ r.now_price = some 0 →
      rowValueEff r = 0) ∧
    (∀ e c : ℚ, 0 < c → valueEff e c = e / c) ∧
    rowValueEff ⟨1, "Zero", some 5, some 0⟩ = 0 ∧
    (∀ (rows : List VRow) (r : VRow),
      r ∈ transferOutRecs rows ↔
        r ∈ rows ∧ rowValueEff r < teamAvgEff rows * (4/5)) := by
  refine ⟨?_, ?_, ?_, ?_, ?_⟩
  · intro e
    simp [valueEff]
  · intro r h
    rcases h with h | h <;> simp [rowValueEff, safeFloat, h, valueEff]
  · intro e c h
    simp [valueEff, h]
  · simp [rowValueEff, safeFloat, valueEff]
  · intro rows r
    rw [transferOutRecs, List.mem_filter, sortedByEff, List.mem_mergeSort,
      decide_eq_true_eq]

end FPL

namespace FPL

/-- C4 (amended): the cold-streak scan flags a player exactly when the
`minLen` most recent realized scores all lie at or below the threshold
(the backward scan stops at the first score above it); in particular
scores [5, 1, 0] oldest-to-newest ARE flagged with threshold 2 and
minimum length 2 - the two most recent scores are 0 and 1 - as are
[5, 0, 1], while [1, 0, 5], whose most recent score breaks the streak
immediately, are not. -/
theorem cold_streak_scan_rule :
    (∀ (pts : List Int) (threshold : Int) (minLen : Nat),
      coldStreakFlagged pts threshold minLen = true ↔
        minLen ≤ pts.length ∧ ∀ x ∈ pts.reverse.take minLen, x ≤ threshold) ∧
    coldStreakFlagged [5, 1, 0] 2 2 = true ∧
    coldStreakFlagged [5, 0, 1] 2 2 = true ∧
    coldStreakFlagged [1, 0, 5] 2 2 = false := by
  refine ⟨?_, by decide, by decide, by decide⟩
  intro pts threshold minLen
  rw [coldStreakFlagged, decide_eq_true_eq, lowPointsStreak,
    le_length_takeWhile_iff, List.length_reverse]
  simp

/-- Counterexample to C4 as stated: the scenario scores [5, 1, 0]
(oldest to newest), which the claim says should NOT be flagged with
threshold 2 and minimum streak length 2, are flagged by the code: the
backward scan counts 0 and 1 before 5 stops it, a streak of 2. -/
theorem cold_streak_scenario_cx :
    coldStreakFlagged [5, 1, 0] 2 2 = true ∧
    lowPointsStreak [5, 1, 0] 2 = 2 := by
  constructor <;> decide

/-- C2: a successful optimizer run - the solver returned an assignment
satisfying the model's constraints - reports status "success" and its
squad satisfies every invariant: exactly 15 players, position counts
2/5/5/3, at most 3 players of any club, cost within the budget
(team value plus bank) and at most 1 incoming player (the code's
transfer allowance). -/
theorem optimize_transfer_success_invariants
    (cat : List Elem) (currentIds : List Nat) (value bank : Int) (gw : Nat)
    (a : List Bool × List Bool)
    (hfeas : feasible cat currentIds (value + bank) a.1 a.2) :
    (optimizeTransfer cat currentIds value bank gw (some a)).optimization_status
        = "success" ∧
    (selected cat a.1).length = 15 ∧
    posCount cat a.1 1 = 2 ∧ posCount cat a.1 2 = 5 ∧
    posCount cat a.1 3 = 5 ∧ posCount cat a.1 4 = 3 ∧
    (∀ tc : Nat, clubCount cat a.1 tc ≤ 3) ∧
    squadCost cat a.1 ≤ value + bank ∧
    (optimizeTransfer cat currentIds value bank gw (some a)).transfer_in.length
        ≤ 1 := by
  obtain ⟨h15, htl, htin, hbud, hp1, hp2, hp3, hp4, hclub⟩ := hfeas
  refine ⟨rfl, h15, hp1, hp2, hp3, hp4, ?_, hbud, ?_⟩
  · intro tc
    by_cases htc : tc ∈ cat.map Elem.team_code
    · exact hclub tc htc
    · have h0 : clubCount cat a.1 tc = 0 := by
        rw [clubCount, List.countP_eq_zero]
        intro e he hbe
        rw [beq_iff_eq] at hbe
        exact htc (hbe ▸ List.mem_map_of_mem Elem.team_code
          (mem_of_mem_selected he))
      omega
  · show (selected cat a.2).length ≤ 1
    exact htin

/-- Witness for C2: keeping a full legal squad of 15 owned players. -/
theorem optimize_transfer_success_invariants_witness :
    (optimizeTransfer catW idsW 1000 0 9 (some keepAll)).optimization_status
        = "success" ∧
    (selected catW keepAll.1).length = 15 ∧
    posCount catW keepAll.1 1 = 2 ∧ posCount catW keepAll.1 2 = 5 ∧
    posCount catW keepAll.1 3 = 5 ∧ posCount catW keepAll.1 4 = 3 ∧
    (∀ tc : Nat, clubCount catW keepAll.1 tc ≤ 3) ∧
    squadCost catW keepAll.1 ≤ 1000 + 0 ∧
    (optimizeTransfer catW idsW 1000 0 9 (some keepAll)).transfer_in.length
        ≤ 1 :=
  optimize_transfer_success_invariants catW idsW 1000 0 9 keepAll (by decide)

/-- C5 (amended): on an infeasible program the result has status
"failed" and an empty transfer-in list and no exception is raised, but
the transfer-out list is NOT empty whenever the manager owns players:
the extracted new squad is empty, so every current-squad player is
listed as outgoing. -/
theorem optimize_transfer_infeasible_result
    (cat : List Elem) (currentIds : List Nat) (value bank : Int) (gw : Nat) :
    (optimizeTransfer cat currentIds value bank gw none).optimization_status
        = "failed" ∧
    (optimizeTransfer cat currentIds value bank gw none).transfer_in = [] ∧
    (optimizeTransfer cat currentIds value bank gw none).transfer_out
        = currentIds ∧
    (optimizeTransfer cat currentIds value bank gw none).expected_points_gain
        = 0 := by
  have hsel : selected cat (List.replicate cat.length false) = [] :=
    selected_replicate_false cat
  refine ⟨rfl, ?_, ?_, ?_⟩
  · simpa [optimizeTransfer] using hsel
  · simp [optimizeTransfer, hsel]
  · simp [optimizeTransfer, hsel]

/-- Counterexample to C5 as stated: with a 15-player current squad and
an infeasible program, the transfer-out list is not empty - it lists
all 15 current players - though the claim says both transfer lists are
empty. -/
theorem optimize_transfer_infeasible_cx :
    (optimizeTransfer catW idsW 1000 0 9 none).optimization_status
        = "failed" ∧
    (optimizeTransfer catW idsW 1000 0 9 none).transfer_in = [] ∧
    (optimizeTransfer catW idsW 1000 0 9 none).transfer_out ≠ [] := by
  refine ⟨rfl, by decide, by decide⟩

/-- C1 (amended): the transfer allowance of `optimize_transfer` is
hard-coded to 1 - the function takes no allowance parameter; its
constraint set is exactly the spec's parametric formulation instantiated
at allowance 1, and every feasible solution brings in at most 1
player. -/
theorem transfer_allowance_hardcoded_to_one :
    (∀ (cat : List Elem) (currentIds : List Nat) (budget : Int)
        (squad tin : List Bool),
      feasible cat currentIds budget squad tin ↔
        feasibleAllowance cat currentIds budget 1 squad tin) ∧
    (∀ (cat : List Elem) (currentIds : List Nat) (value bank : Int) (gw : Nat)
        (a : List Bool × List Bool),
      feasible cat currentIds (value + bank) a.1 a.2 →
        (optimizeTransfer cat currentIds value bank gw (some a)).transfer_in.length
          ≤ 1) := by
  constructor
  · intro cat currentIds budget squad tin
    exact Iff.rfl
  · intro cat currentIds value bank gw a hfeas
    show (selected cat a.2).length ≤ 1
    exact hfeas.2.2.1

/-- Counterexample to C1 as stated: the constraint set does not bound
the brought-in count by every allowance `k` - in particular not by 0:
over the 16-player catalogue `cat16` the assignment swapping player 15
for the non-owned player 16 satisfies every constraint of the code's
program yet brings 1 player in. -/
theorem transfer_allowance_not_parametric_cx :
    ¬ ∀ (k : Nat) (squad tin : List Bool),
        feasible cat16 idsW 1000 squad tin →
          (selected cat16 tin).length ≤ k := by
  intro h
  have h1 := h 0 squadX tinX (by decide)
  have h2 : (selected cat16 tinX).length = 1 := by decide
  omega

/-- C9: with an empty picks list the insights endpoint returns the
single well-formed insight titled "No data" whose one item names the
entry id and the gameweek; but the metrics operation
`compute_expected_points_for_entry` never reaches its own no-data
branch: its first step calls `self.fetch_entry_picks`, an attribute
`FPLEntryService` does not define, so it raises `AttributeError` for
every input instead of returning the no-data result. -/
theorem no_picks_insights_ok_metrics_error
    (computed : List Insight) (picks : List Pick)
    (enrich : List Pick → List ERow) (entryId horizon : Nat) :
    getInsightsEndpoint 3982786 9 [] computed
        = [Insight.mk "No data" ["No picks found for entry 3982786 GW 9."]] ∧
    computeExpectedPointsForEntry entryId horizon picks enrich
        = Except.error
            "AttributeError: FPLEntryService has no attribute fetch_entry_picks"
        := by
  constructor
  · rfl
  · rfl

end FPL
